import Mathlib

/-!
Shallow embedding of the serialization core of v-individual-model:
the Turtle formatter with prefixes, the typed value model with its JSON
encoding, and the raw-format detector / parser dispatch.  Definitions are
translated from the Rust source (src/onto/turtle_formatters_with_prefixes.rs,
src/onto/individual2json.rs, src/onto/parser.rs); external collaborators
(the IRI validator, the binary decoders) are taken as function parameters,
and repository code outside the provided sources (datatype.rs, resource.rs,
individual.rs) is modelled from the specification where a claim needs it.
-/

namespace VIndividual

/-! ## RDF term model (rio_api::model, as used by the formatter) -/

/-- Kind tag for a subject position term, from the source enum
NamedOrBlankNodeType. -/
inductive NamedOrBlankNodeType
  | NamedNode
  | BlankNode
deriving DecidableEq, Repr

/-- Subject position term: a named node (IRI text) or a blank node (id text). -/
inductive NamedOrBlankNode
  | namedNode (iri : String)
  | blankNode (id : String)
deriving DecidableEq, Repr

/-- Reconstructs a NamedOrBlankNode from a kind tag and a text, from the
source method NamedOrBlankNodeType::with_value. -/
def NamedOrBlankNodeType.with_value : NamedOrBlankNodeType → String → NamedOrBlankNode
  | NamedOrBlankNodeType.NamedNode, v => NamedOrBlankNode.namedNode v
  | NamedOrBlankNodeType.BlankNode, v => NamedOrBlankNode.blankNode v

/-- Literal object term (rio_api::model::Literal). -/
inductive Literal
  | simple (value : String)
  | languageTaggedString (value language : String)
  | typed (value datatypeIri : String)
deriving DecidableEq, Repr

/-- Object position term (rio_api::model::Term, without nested triples). -/
inductive Term
  | namedNode (iri : String)
  | blankNode (id : String)
  | literal (l : Literal)
deriving DecidableEq, Repr

/-- An RDF triple as consumed by the formatter; the predicate is a named
node, carried here as its IRI text. -/
structure Triple where
  subject : NamedOrBlankNode
  predicate : String
  object : Term
deriving DecidableEq, Repr

/-! ## RDF literal escaping (escape / EscapeRDF in the source) -/

/-- Expansion of one character by the EscapeRDF iterator: newline, carriage
return, double quote and backslash expand to a backslash pair, every other
character passes through unchanged. -/
def escapeChar (c : Char) : List Char :=
  match c with
  | '\n' => ['\\', 'n']
  | '\r' => ['\\', 'r']
  | '"' => ['\\', '"']
  | '\\' => ['\\', '\\']
  | c => [c]

/-- Escaping of a whole literal text, from the source function escape
(chars flat-mapped through EscapeRDF). -/
def escape (s : String) : String :=
  String.mk (s.data.flatMap escapeChar)

/-- Reverse substitution of the escaping rule on character lists: a
backslash followed by n, r, a double quote or a backslash contracts to the
original character; any other character passes through. -/
def unescapeChars : List Char → List Char
  | [] => []
  | '\\' :: 'n' :: rest => '\n' :: unescapeChars rest
  | '\\' :: 'r' :: rest => '\r' :: unescapeChars rest
  | '\\' :: '"' :: rest => '"' :: unescapeChars rest
  | '\\' :: '\\' :: rest => '\\' :: unescapeChars rest
  | c :: rest => c :: unescapeChars rest

/-- Turtle-unescaping of a whole string by the reverse of the defined
escaping rule. -/
def unescape (s : String) : String :=
  String.mk (unescapeChars s.data)

/-- Decides whether a string starts with the scheme text of an absolute
http IRI (the starts_with http test of the source, as a character-list
prefix test). -/
def httpPrefixed (s : String) : Bool :=
  "http://".data.isPrefixOf s.data

/-! ## Object term rendering (fmt_object in the source) -/

/-- Rendering of an object term, from the source function fmt_object.  The
external IRI-grammar validator is the parameter iriOk. -/
def fmt_object (iriOk : String → Bool) : Term → String
  | Term.namedNode n =>
    if iriOk n then
      if httpPrefixed n then "<" ++ n ++ ">" else n
    else
      "\"" ++ escape n ++ "\""
  | Term.blankNode n => n
  | Term.literal (Literal.simple value) => "\"" ++ escape value ++ "\""
  | Term.literal (Literal.languageTaggedString value language) =>
      "\"" ++ escape value ++ "\"@" ++ language
  | Term.literal (Literal.typed value datatype) =>
      "\"" ++ escape value ++ "\"^^" ++ datatype

/-! ## The stateful Turtle formatter -/

/-- Cursor state of the Turtle formatter plus the accumulated output text
(the write sink is modelled as the string written so far). -/
structure TurtleFormatterWithPrefixes where
  write : String
  current_subject : String
  current_subject_type : Option NamedOrBlankNodeType
  current_predicate : String
deriving DecidableEq, Repr

/-- The state of a freshly built formatter before anything is written
(TurtleFormatterWithPrefixes::new with prefix writing disabled). -/
def TurtleFormatterWithPrefixes.init : TurtleFormatterWithPrefixes :=
  { write := "", current_subject := "", current_subject_type := none,
    current_predicate := "" }

/-- Text of the subject position term, as extracted at the top of the
source format method. -/
def subjectText : NamedOrBlankNode → String
  | NamedOrBlankNode.namedNode n => n
  | NamedOrBlankNode.blankNode n => n

/-- Kind of the subject position term, as stored into current_subject_type
at the bottom of the source format method. -/
def subjectKind : NamedOrBlankNode → NamedOrBlankNodeType
  | NamedOrBlankNode.namedNode _ => NamedOrBlankNodeType.NamedNode
  | NamedOrBlankNode.blankNode _ => NamedOrBlankNodeType.BlankNode

/-- Statement-opening text for a subject, common to the two
statement-opening write branches of the source format method: the subject
wrapped in angle brackets when its text is http-prefixed and bare
otherwise, then a newline, two-space indentation, the predicate and a
space. -/
def openSubject (sbj pred : String) : String :=
  if httpPrefixed sbj then "<" ++ sbj ++ "> \n  " ++ pred ++ " "
  else sbj ++ " \n  " ++ pred ++ " "

/-- One step of the formatter, from the source method
TriplesFormatter::format for TurtleFormatterWithPrefixes: emits the
continuation or statement-opening punctuation, renders the object, and
updates the cursor state to the triple just processed. -/
def TurtleFormatterWithPrefixes.format (iriOk : String → Bool)
    (f : TurtleFormatterWithPrefixes) (t : Triple) :
    TurtleFormatterWithPrefixes :=
  let sbj := subjectText t.subject
  let out : String :=
    match f.current_subject_type with
    | some cst =>
      if cst.with_value f.current_subject = t.subject then
        if f.current_predicate = t.predicate then ", "
        else " ;\n  " ++ t.predicate ++ " "
      else " .\n\n" ++ openSubject sbj t.predicate
    | none => openSubject sbj t.predicate
  { write := f.write ++ out ++ fmt_object iriOk t.object,
    current_subject := sbj,
    current_subject_type := some (subjectKind t.subject),
    current_predicate := t.predicate }

/-- Final output of the formatter, from the source method finish: appends
the terminating period and newline when a statement is open, nothing
otherwise. -/
def TurtleFormatterWithPrefixes.finish (f : TurtleFormatterWithPrefixes) :
    String :=
  if f.current_subject_type.isSome then f.write ++ " .\n" else f.write

/-- Feeding an ordered triple stream to the formatter, one format call per
triple. -/
def TurtleFormatterWithPrefixes.formatAll (iriOk : String → Bool)
    (f : TurtleFormatterWithPrefixes) (ts : List Triple) :
    TurtleFormatterWithPrefixes :=
  ts.foldl (fun acc t => acc.format iriOk t) f

/-! ## Typed value model (datatype.rs / resource.rs of this repository,
not among the provided sources, modelled from the spec) -/

/-- Modelled from the spec: the closed set of seven logical kinds a
Resource declares (datatype.rs is not among the provided sources). -/
inductive DataType
  | Uri
  | String
  | Integer
  | Datetime
  | Decimal
  | Boolean
  | Binary
deriving DecidableEq, Repr

/-- Modelled from the spec: a language-tag identifier that renders to its
bare tag string (datatype.rs is not among the provided sources). -/
structure Lang where
  tag : String
deriving DecidableEq, Repr

/-- Modelled from the spec: the tagged union of payloads, one active
variant at a time (resource.rs is not among the provided sources).  The
64-bit machine integers of the source are carried as mathematical integers;
bytes of a binary payload as naturals below 256. -/
inductive Value
  | Num (m : Int) (e : Int)
  | Int (i : Int)
  | Datetime (i : Int)
  | Bool (b : Bool)
  | Str (s : String) (l : Option Lang)
  | Uri (s : String)
  | Binary (b : List Nat)
deriving DecidableEq, Repr

/-- Modelled from the spec: a Value plus its declared DataType
(resource.rs is not among the provided sources). -/
structure Resource where
  value : Value
  rtype : DataType
deriving DecidableEq, Repr

/-- Modelled from the spec: an addressable entity with a URI and an
ordered mapping from predicate string to a sequence of Resources
(individual.rs is not among the provided sources). -/
structure IndividualObj where
  uri : String
  resources : List (String × List Resource)
deriving DecidableEq, Repr

/-! ## JSON value model -/

/-- A JSON value, as produced by the serialize implementations; objects
keep their fields in emission order. -/
inductive Json
  | null
  | bool (b : Bool)
  | int (i : Int)
  | str (s : String)
  | arr (xs : List Json)
  | obj (fields : List (String × Json))
deriving Repr

/-- Keys of a JSON object, in order; empty for any other JSON value. -/
def jsonKeys : Json → List String
  | Json.obj fields => fields.map Prod.fst
  | _ => []

/-- Looks up the first field with the given key in a JSON object. -/
def jsonGet (key : String) : Json → Option Json
  | Json.obj fields => (fields.find? (fun kv => kv.1 = key)).map Prod.snd
  | _ => none

/-! ## Exact decimal rendering and parsing -/

/-- Modelled from the spec: the external decimal-scale helper
exponent_to_scale of datatype.rs (not among the provided sources) turns
(mantissa, exponent) into (scaled integer, non-negative decimal scale)
such that scaled × 10^(-scale) equals mantissa × 10^exponent. -/
def exponent_to_scale (m e : Int) : Int × Nat :=
  if 0 ≤ e then (m * 10 ^ e.toNat, 0) else (m, (-e).toNat)

/-- Character of a decimal digit. -/
def digitChar (d : Nat) : Char := Char.ofNat (48 + d)

/-- Big-endian decimal digit characters of a natural number. -/
def natToDigitsBE (n : Nat) : List Char :=
  if n = 0 then ['0'] else ((Nat.digits 10 n).map digitChar).reverse

/-- Pads a digit-character list with leading zeros to length at least k. -/
def padDigits (ds : List Char) (k : Nat) : List Char :=
  List.replicate (k - ds.length) '0' ++ ds

/-- Modelled from the spec: the fixed-point decimal string of
n × 10^(-s), as rendered by the external Decimal host type used in the
Value serializer's Num arm (sign, integer part, and exactly s fractional
digits when s is positive). -/
def renderFixedDecimal (n : Int) (s : Nat) : String :=
  let sign := if n < 0 then "-" else ""
  let ds := padDigits (natToDigitsBE n.natAbs) (s + 1)
  if s = 0 then sign ++ String.mk ds
  else
    sign ++ String.mk (ds.take (ds.length - s)) ++ "." ++
      String.mk (ds.drop (ds.length - s))

/-- The data string emitted for a Num value: scale reconstruction through
exponent_to_scale followed by fixed-point rendering (the Value
serializer's Num arm). -/
def numDataString (m e : Int) : String :=
  let p := exponent_to_scale m e
  renderFixedDecimal p.1 p.2

/-- Tests whether a character is a decimal digit. -/
def isDigitChar (c : Char) : Bool := 48 ≤ c.toNat && c.toNat ≤ 57

/-- Numeric value of a digit character. -/
def digitVal (c : Char) : Nat := c.toNat - 48

/-- Value of a big-endian digit-character run. -/
def parseNat (cs : List Char) : Nat :=
  cs.foldl (fun a c => 10 * a + digitVal c) 0

/-- Splits a character list at its first dot: the part before it, and the
part after it when a dot occurs. -/
def splitDot : List Char → List Char × Option (List Char)
  | [] => ([], none)
  | c :: rest =>
    if c = '.' then ([], some rest)
    else
      let p := splitDot rest
      (c :: p.1, p.2)

/-- Strips one leading minus sign, reporting whether one was present. -/
def stripMinus : List Char → Bool × List Char
  | [] => (false, [])
  | c :: r => if c = '-' then (true, r) else (false, c :: r)

/-- Parses an unsigned fixed-point decimal body, applying the sign flag:
a non-empty digit run, optionally followed by a dot and a further
non-empty digit run; the result is the pair (signed scaled integer,
decimal scale). -/
def parseBody (neg : Bool) (body : List Char) : Option (Int × Nat) :=
  let p := splitDot body
  match p.2 with
  | none =>
    if p.1 ≠ [] ∧ p.1.all isDigitChar then
      some (if neg then -(parseNat p.1 : Int) else (parseNat p.1 : Int), 0)
    else none
  | some fp =>
    if p.1 ≠ [] ∧ fp ≠ [] ∧ p.1.all isDigitChar ∧ fp.all isDigitChar then
      some
        (if neg then -(parseNat (p.1 ++ fp) : Int)
         else (parseNat (p.1 ++ fp) : Int),
         fp.length)
    else none

/-- Parses a string as an exact fixed-point decimal: an optional leading
minus sign and a fixed-point decimal body. -/
def parseFixedDecimal (str : String) : Option (Int × Nat) :=
  let hd := stripMinus str.data
  parseBody hd.1 hd.2

/-! ## JSON serialization engine (individual2json.rs) -/

/-- Modelled from the spec: rendering of an epoch-seconds value by the
external chrono collaborator — an ISO-8601-style UTC string for in-range
epochs and a diagnostic placeholder otherwise.  No claim depends on the
exact text, only on the arm producing a string and never failing. -/
def datetimeString (i : Int) : String := "datetime:" ++ toString i

/-- Serialization of a Lang, from the source impl Serialize for Lang:
its bare tag string. -/
def jsonOfLang (lg : Lang) : Json := Json.str lg.tag

/-- Serialization of a DataType, from the source impl Serialize for
DataType: the exact capitalized name string. -/
def jsonOfDataType : DataType → Json
  | DataType.Uri => Json.str "Uri"
  | DataType.String => Json.str "String"
  | DataType.Integer => Json.str "Integer"
  | DataType.Datetime => Json.str "Datetime"
  | DataType.Decimal => Json.str "Decimal"
  | DataType.Boolean => Json.str "Boolean"
  | DataType.Binary => Json.str "Binary"

/-- Serialization of a bare Value, from the source impl Serialize for
Value: Num renders as the exact decimal string, Int and Datetime as raw
integers, Str and Uri as small objects, and every other variant as
null. -/
def jsonOfValue : Value → Json
  | Value.Num m e => Json.str (numDataString m e)
  | Value.Int i => Json.int i
  | Value.Datetime i => Json.int i
  | Value.Bool b => Json.bool b
  | Value.Str s l =>
    Json.obj
      ([("data", Json.str s)] ++
        (match l with
         | some lg => [("lang", jsonOfLang lg)]
         | none => []))
  | Value.Uri s => Json.obj [("data", Json.str s)]
  | Value.Binary _ => Json.null

/-- Serialization of a Resource, from the source impl Serialize for
Resource: a struct with a type-dependent data field, a conditional lang
field for Str under DataType.String, and always a type field; the Binary
arm emits no data field at all. -/
def jsonOfResource (r : Resource) : Json :=
  let dataFields : List (String × Json) :=
    match r.value with
    | Value.Num _ _ => [("data", jsonOfValue r.value)]
    | Value.Int i => [("data", Json.int i)]
    | Value.Datetime i => [("data", Json.str (datetimeString i))]
    | Value.Bool b => [("data", Json.bool b)]
    | Value.Str s l =>
      [("data", Json.str s)] ++
        (match l with
         | some lg =>
           if r.rtype = DataType.String then [("lang", jsonOfLang lg)] else []
         | none => [])
    | Value.Uri s => [("data", Json.str s)]
    | Value.Binary _ => []
  Json.obj (dataFields ++ [("type", jsonOfDataType r.rtype)])

/-- Serialization of one predicate's resource sequence: a JSON array of
Resource objects. -/
def jsonOfResources (rs : List Resource) : Json :=
  Json.arr (rs.map jsonOfResource)

/-- Serialization of an IndividualObj, from the source impl Serialize for
IndividualObj: the reserved key followed by one entry per predicate in
stored order. -/
def jsonOfIndividual (ind : IndividualObj) : Json :=
  Json.obj
    (("@", Json.str ind.uri) ::
      ind.resources.map (fun kv => (kv.1, jsonOfResources kv.2)))

/-- Result of the fallible host encoder serde_json::to_value on an
IndividualObj: the serialize implementations above never construct an
error themselves and every map key is a string, so the embedded encoder
always succeeds; the Except result keeps the call sites faithful to the
source, which matches on Ok. -/
def to_value (ind : IndividualObj) : Except String Json :=
  Except.ok (jsonOfIndividual ind)

/-- Expansion of one character under JSON string escaping by the host
encoder. -/
def jsonEscapeChar (c : Char) : List Char :=
  if c = '\n' then ['\\', 'n']
  else if c = '\r' then ['\\', 'r']
  else if c = '\t' then ['\\', 't']
  else if c = '\\' then ['\\', '\\']
  else if c = '"' then ['\\', '"']
  else [c]

/-- JSON string escaping by the host encoder. -/
def jsonEscape (s : String) : String :=
  String.mk (s.data.flatMap jsonEscapeChar)

mutual
/-- Modelled from the spec: compact JSON text rendering of a JSON value by
the external host encoder (to_string on the value). -/
def renderJson : Json → String
  | Json.null => "null"
  | Json.bool b => if b then "true" else "false"
  | Json.int i => toString i
  | Json.str s => "\"" ++ jsonEscape s ++ "\""
  | Json.arr xs => "[" ++ renderJsonList xs ++ "]"
  | Json.obj fs => "\x7b" ++ renderJsonFields fs ++ "\x7d"

/-- Comma-separated rendering of the elements of a JSON array. -/
def renderJsonList : List Json → String
  | [] => ""
  | [x] => renderJson x
  | x :: rest => renderJson x ++ "," ++ renderJsonList rest

/-- Comma-separated rendering of the fields of a JSON object. -/
def renderJsonFields : List (String × Json) → String
  | [] => ""
  | [kv] => "\"" ++ jsonEscape kv.1 ++ "\":" ++ renderJson kv.2
  | kv :: rest =>
    "\"" ++ jsonEscape kv.1 ++ "\":" ++ renderJson kv.2 ++ "," ++
      renderJsonFields rest
end

/-- JSON string of an IndividualObj, from the source method as_json_str:
the rendered value on encoder success, the empty string otherwise. -/
def IndividualObj.as_json_str (ind : IndividualObj) : String :=
  match to_value ind with
  | Except.ok b => renderJson b
  | Except.error _ => ""

/-- JSON value of an IndividualObj, from the source method as_json: the
encoded value on encoder success, JSON null otherwise. -/
def IndividualObj.as_json (ind : IndividualObj) : Json :=
  match to_value ind with
  | Except.ok b => b
  | Except.error _ => Json.null

/-! ## Raw format detector and parser dispatch (parser.rs) -/

/-- Classification tag of a not-yet-parsed payload, from the source enum
RawType. -/
inductive RawType
  | Cbor
  | Json
  | Msgpack
  | Unknown
deriving DecidableEq, Repr

/-- Raw payload of an Individual: the byte buffer and its classification
tag (bytes as naturals below 256). -/
structure RawObj where
  data : List Nat
  raw_type : RawType
deriving DecidableEq, Repr

/-- An Individual under parsing: its raw payload and its object form. -/
structure Individual where
  raw : RawObj
  obj : IndividualObj
deriving DecidableEq, Repr

/-- The magic first byte of the compact-map-header of the msgpack codec,
from the source constant MSGPACK_MAGIC_HEADER. -/
def MSGPACK_MAGIC_HEADER : Nat := 146

/-- Whole-object raw parsing, from the source function parse_raw: an empty
buffer is a no-op success; otherwise the first byte picks the format tag,
which is stored on the Individual before the matching external decoder
(passed as a parameter, per the spec's decoder contract) runs; decoder
success adopts the returned URI, decoder failure reports the sentinel
-1. -/
def parse_raw (parse_msgpack parse_cbor : List Nat → Option String)
    (iraw : Individual) : Individual × Except Int Unit :=
  match iraw.raw.data with
  | [] => (iraw, Except.ok ())
  | b :: _ =>
    let rt := if b = MSGPACK_MAGIC_HEADER then RawType.Msgpack else RawType.Cbor
    let iraw1 : Individual := { iraw with raw := { iraw.raw with raw_type := rt } }
    let res :=
      if rt = RawType.Msgpack then parse_msgpack iraw1.raw.data
      else parse_cbor iraw1.raw.data
    match res with
    | some uri => ({ iraw1 with obj := { iraw1.obj with uri := uri } }, Except.ok ())
    | none => (iraw1, Except.error (-1))

/-! ## Supporting lemmas -/

lemma escapeChar_of_not_special (c : Char) (h1 : c ≠ '\n') (h2 : c ≠ '\r')
    (h3 : c ≠ '"') (h4 : c ≠ '\\') : escapeChar c = [c] := by
  unfold escapeChar
  split
  · exact absurd rfl h1
  · exact absurd rfl h2
  · exact absurd rfl h3
  · exact absurd rfl h4
  · rfl

lemma unescapeChars_cons_of_ne (c : Char) (rest : List Char) (h : c ≠ '\\') :
    unescapeChars (c :: rest) = c :: unescapeChars rest := by
  conv_lhs => rw [unescapeChars.eq_def]
  split <;> rename_i heq <;>
    first
      | (injection heq with h1 h2; exact absurd h1 h)
      | (injection heq with h1 h2; subst h1; subst h2; rfl)
      | injection heq

lemma unescapeChars_escape_list (l : List Char) :
    unescapeChars (l.flatMap escapeChar) = l := by
  induction l with
  | nil => rfl
  | cons c rest ih =>
    rw [List.flatMap_cons]
    by_cases h1 : c = '\n'
    · subst h1; simpa [escapeChar, unescapeChars] using ih
    by_cases h2 : c = '\r'
    · subst h2; simpa [escapeChar, unescapeChars] using ih
    by_cases h3 : c = '"'
    · subst h3; simpa [escapeChar, unescapeChars] using ih
    by_cases h4 : c = '\\'
    · subst h4; simpa [escapeChar, unescapeChars] using ih
    · rw [escapeChar_of_not_special c h1 h2 h3 h4, List.singleton_append,
        unescapeChars_cons_of_ne c _ h4, ih]

lemma with_value_subjectKind (s : NamedOrBlankNode) :
    (subjectKind s).with_value (subjectText s) = s := by
  cases s <;> rfl

lemma digitVal_digitChar (d : Nat) (hd : d < 10) :
    digitVal (digitChar d) = d := by
  interval_cases d <;> decide

lemma isDigitChar_digitChar (d : Nat) (hd : d < 10) :
    isDigitChar (digitChar d) = true := by
  interval_cases d <;> decide

lemma isDigitChar_facts (c : Char) (h : isDigitChar c = true) :
    c ≠ '.' ∧ c ≠ '-' := by
  unfold isDigitChar at h
  constructor <;> rintro rfl <;> simp at h

lemma foldl_digits_reverse (l : List Nat) :
    ∀ a : Nat, List.foldl (fun x d => 10 * x + d) a l.reverse =
      a * 10 ^ l.length + Nat.ofDigits 10 l := by
  induction l with
  | nil => intro a; simp [Nat.ofDigits_nil]
  | cons d t ih =>
    intro a
    rw [List.reverse_cons, List.foldl_append, ih]
    simp only [List.foldl_cons, List.foldl_nil, Nat.ofDigits_cons,
      List.length_cons]
    ring

lemma parseNat_map_digitChar_reverse (l : List Nat) (hl : ∀ d ∈ l, d < 10) :
    parseNat ((l.map digitChar).reverse) = Nat.ofDigits 10 l := by
  unfold parseNat
  rw [← List.map_reverse, List.foldl_map]
  have h1 : List.foldl (fun x y => 10 * x + digitVal (digitChar y)) 0 l.reverse
      = List.foldl (fun x d => 10 * x + d) 0 l.reverse :=
    List.foldl_ext _ _ 0 (fun a d hd => by
      rw [digitVal_digitChar d (hl d (List.mem_reverse.mp hd))])
  rw [h1, foldl_digits_reverse l 0]
  simp

lemma parseNat_natToDigitsBE (n : Nat) : parseNat (natToDigitsBE n) = n := by
  unfold natToDigitsBE
  by_cases hn : n = 0
  · subst hn; decide
  · rw [if_neg hn,
      parseNat_map_digitChar_reverse _
        (fun d hd => Nat.digits_lt_base (by norm_num) hd),
      Nat.ofDigits_digits]

lemma parseNat_replicate_zero (k : Nat) (ds : List Char) :
    parseNat (List.replicate k '0' ++ ds) = parseNat ds := by
  unfold parseNat
  rw [List.foldl_append]
  congr 1
  induction k with
  | zero => rfl
  | succ k ih => rw [List.replicate_succ, List.foldl_cons]; exact ih

lemma parseNat_padDigits (ds : List Char) (k : Nat) :
    parseNat (padDigits ds k) = parseNat ds :=
  parseNat_replicate_zero _ _

lemma natToDigitsBE_all_digits (n : Nat) :
    ∀ c ∈ natToDigitsBE n, isDigitChar c = true := by
  unfold natToDigitsBE
  by_cases hn : n = 0
  · subst hn; intro c hc; simp at hc; subst hc; decide
  · rw [if_neg hn]
    intro c hc
    rw [List.mem_reverse, List.mem_map] at hc
    obtain ⟨d, hd, rfl⟩ := hc
    exact isDigitChar_digitChar d (Nat.digits_lt_base (by norm_num) hd)

lemma padDigits_all_digits (ds : List Char) (k : Nat)
    (h : ∀ c ∈ ds, isDigitChar c = true) :
    ∀ c ∈ padDigits ds k, isDigitChar c = true := by
  intro c hc
  rw [padDigits, List.mem_append] at hc
  rcases hc with hc | hc
  · rw [List.eq_of_mem_replicate hc]; decide
  · exact h c hc

lemma padDigits_length (ds : List Char) (k : Nat) :
    k ≤ (padDigits ds k).length := by
  unfold padDigits
  rw [List.length_append, List.length_replicate]
  omega

lemma splitDot_no_dot (l : List Char) (h : ∀ c ∈ l, c ≠ '.') :
    splitDot l = (l, none) := by
  induction l with
  | nil => rfl
  | cons c t ih =>
    have hc : c ≠ '.' := h c (List.mem_cons_self ..)
    simp only [splitDot, if_neg hc]
    rw [ih (fun x hx => h x (List.mem_cons_of_mem _ hx))]

lemma splitDot_append_dot (ip fp : List Char) (h : ∀ c ∈ ip, c ≠ '.') :
    splitDot (ip ++ '.' :: fp) = (ip, some fp) := by
  induction ip with
  | nil => simp [splitDot]
  | cons c t ih =>
    have hc : c ≠ '.' := h c (List.mem_cons_self ..)
    simp only [List.cons_append, splitDot, if_neg hc]
    rw [List.append_eq, ih (fun x hx => h x (List.mem_cons_of_mem _ hx))]

lemma stripMinus_of_digit (c : Char) (t : List Char)
    (h : isDigitChar c = true) : stripMinus (c :: t) = (false, c :: t) := by
  have := (isDigitChar_facts c h).2
  simp [stripMinus, this]

lemma parseBody_no_dot (neg : Bool) (body : List Char) (hne : body ≠ [])
    (hall : ∀ c ∈ body, isDigitChar c = true) :
    parseBody neg body =
      some (if neg then -(parseNat body : Int) else (parseNat body : Int), 0) := by
  have hnd : ∀ c ∈ body, c ≠ '.' := fun c hc => (isDigitChar_facts c (hall c hc)).1
  unfold parseBody
  rw [splitDot_no_dot body hnd]
  simp only []
  rw [if_pos ⟨hne, by rw [List.all_eq_true]; exact hall⟩]

lemma parseBody_dot (neg : Bool) (ip fp : List Char) (hip : ip ≠ [])
    (hfp : fp ≠ []) (hip_all : ∀ c ∈ ip, isDigitChar c = true)
    (hfp_all : ∀ c ∈ fp, isDigitChar c = true) :
    parseBody neg (ip ++ '.' :: fp) =
      some
        (if neg then -(parseNat (ip ++ fp) : Int)
         else (parseNat (ip ++ fp) : Int),
         fp.length) := by
  have hnd : ∀ c ∈ ip, c ≠ '.' := fun c hc => (isDigitChar_facts c (hip_all c hc)).1
  unfold parseBody
  rw [splitDot_append_dot ip fp hnd]
  simp only []
  rw [if_pos ⟨hip, hfp, by rw [List.all_eq_true]; exact hip_all,
    by rw [List.all_eq_true]; exact hfp_all⟩]

lemma parse_renderFixedDecimal (n : Int) (s : Nat) :
    parseFixedDecimal (renderFixedDecimal n s) = some (n, s) := by
  have hall : ∀ c ∈ padDigits (natToDigitsBE n.natAbs) (s + 1),
      isDigitChar c = true :=
    padDigits_all_digits _ _ (natToDigitsBE_all_digits _)
  have hlen : s + 1 ≤ (padDigits (natToDigitsBE n.natAbs) (s + 1)).length :=
    padDigits_length _ _
  set ds := padDigits (natToDigitsBE n.natAbs) (s + 1) with hds_def
  have hne : ds ≠ [] := by
    intro h0
    rw [h0] at hlen
    simp at hlen
  have hparse : parseNat ds = n.natAbs := by
    rw [hds_def, parseNat_padDigits, parseNat_natToDigitsBE]
  by_cases hs : s = 0
  · subst hs
    by_cases hneg : n < 0
    · have hdata : (renderFixedDecimal n 0).data = '-' :: ds := by
        unfold renderFixedDecimal
        rw [if_pos hneg, if_pos rfl]
        rfl
      unfold parseFixedDecimal
      rw [hdata]
      rw [show stripMinus ('-' :: ds) = (true, ds) by simp [stripMinus]]
      rw [parseBody_no_dot true ds hne hall, hparse]
      simp only [if_true, Option.some.injEq, Prod.mk.injEq]
      exact ⟨by omega, trivial⟩
    · have hdata : (renderFixedDecimal n 0).data = ds := by
        unfold renderFixedDecimal
        rw [if_neg hneg, if_pos rfl]
        rfl
      obtain ⟨c, t, hct⟩ := List.exists_cons_of_ne_nil hne
      unfold parseFixedDecimal
      rw [hdata, hct, stripMinus_of_digit c t (hall c (hct ▸ List.mem_cons_self ..)), ← hct]
      rw [parseBody_no_dot false ds hne hall, hparse]
      simp only [Bool.false_eq_true, if_false, Option.some.injEq, Prod.mk.injEq]
      exact ⟨by omega, trivial⟩
  · have hlen2 : s < ds.length := by omega
    have hip_ne : ds.take (ds.length - s) ≠ [] := by
      intro h0
      have := congrArg List.length h0
      rw [List.length_take] at this
      simp at this
      omega
    have hfp_ne : ds.drop (ds.length - s) ≠ [] := by
      intro h0
      have := congrArg List.length h0
      rw [List.length_drop] at this
      simp at this
      omega
    have hip_all : ∀ c ∈ ds.take (ds.length - s), isDigitChar c = true :=
      fun c hc => hall c (List.take_subset _ _ hc)
    have hfp_all : ∀ c ∈ ds.drop (ds.length - s), isDigitChar c = true :=
      fun c hc => hall c (List.drop_subset _ _ hc)
    have hfp_len : (ds.drop (ds.length - s)).length = s := by
      rw [List.length_drop]
      omega
    have hcat : ds.take (ds.length - s) ++ ds.drop (ds.length - s) = ds :=
      List.take_append_drop _ _
    by_cases hneg : n < 0
    · have hdata : (renderFixedDecimal n s).data =
          '-' :: (ds.take (ds.length - s) ++ '.' :: ds.drop (ds.length - s)) := by
        unfold renderFixedDecimal
        rw [if_pos hneg, if_neg hs]
        show (("-" ++ String.mk (ds.take (ds.length - s))).data ++ ".".data) ++
            (ds.drop (ds.length - s)) =
          '-' :: (ds.take (ds.length - s) ++ '.' :: ds.drop (ds.length - s))
        simp [List.append_assoc]
      unfold parseFixedDecimal
      rw [hdata]
      rw [show ∀ x, stripMinus ('-' :: x) = (true, x) from fun x => by simp [stripMinus]]
      rw [parseBody_dot true _ _ hip_ne hfp_ne hip_all hfp_all, hcat, hparse, hfp_len]
      simp only [if_true, Option.some.injEq, Prod.mk.injEq]
      exact ⟨by omega, trivial⟩
    · have hdata : (renderFixedDecimal n s).data =
          ds.take (ds.length - s) ++ '.' :: ds.drop (ds.length - s) := by
        unfold renderFixedDecimal
        rw [if_neg hneg, if_neg hs]
        show (("" ++ String.mk (ds.take (ds.length - s))).data ++ ".".data) ++
            (ds.drop (ds.length - s)) =
          ds.take (ds.length - s) ++ '.' :: ds.drop (ds.length - s)
        simp [List.append_assoc]
      obtain ⟨c, t, hct⟩ := List.exists_cons_of_ne_nil hip_ne
      have hcd : isDigitChar c = true := hip_all c (hct ▸ List.mem_cons_self ..)
      unfold parseFixedDecimal
      rw [hdata, hct, List.cons_append,
        stripMinus_of_digit c (t ++ '.' :: ds.drop (ds.length - s)) hcd,
        ← List.cons_append, ← hct]
      rw [parseBody_dot false _ _ hip_ne hfp_ne hip_all hfp_all, hcat, hparse, hfp_len]
      simp only [Bool.false_eq_true, if_false, Option.some.injEq, Prod.mk.injEq]
      exact ⟨by omega, trivial⟩

lemma exponent_to_scale_exact (m e : Int) :
    (((exponent_to_scale m e).1 : ℚ) / (10 : ℚ) ^ (exponent_to_scale m e).2 =
      (m : ℚ) * (10 : ℚ) ^ e) := by
  unfold exponent_to_scale
  by_cases he : 0 ≤ e
  · rw [if_pos he]
    simp only
    push_cast
    rw [pow_zero, div_one, ← zpow_natCast (10 : ℚ) e.toNat,
      Int.toNat_of_nonneg he]
  · rw [if_neg he]
    simp only
    rw [div_eq_mul_inv, ← zpow_natCast (10 : ℚ) (-e).toNat,
      Int.toNat_of_nonneg (by omega), ← zpow_neg, neg_neg]

/-! ## Claim theorems -/

/-- C1: feeding the ordered stream (s1,p1,o1), (s1,p1,o2), (s1,p2,o3),
(s2,p1,o4) to an initially-empty formatter produces exactly one statement
block for s1 — a comma and space between o1 and o2, a space-semicolon,
newline and the new predicate before o3 — then the terminating period, a
blank line and a fresh statement block for s2; finish afterwards appends
the final terminating period and newline, while finish on a formatter
that never formatted a triple appends nothing. -/
theorem turtle_grouping_c1 (iriOk : String → Bool)
    (S1 S2 : NamedOrBlankNode) (p1 p2 : String) (o1 o2 o3 o4 : Term)
    (hS : S1 ≠ S2) (hp : p1 ≠ p2) :
    (TurtleFormatterWithPrefixes.formatAll iriOk
        TurtleFormatterWithPrefixes.init
        [⟨S1, p1, o1⟩, ⟨S1, p1, o2⟩, ⟨S1, p2, o3⟩, ⟨S2, p1, o4⟩]).write =
      openSubject (subjectText S1) p1 ++ fmt_object iriOk o1 ++
        ", " ++ fmt_object iriOk o2 ++
        (" ;\n  " ++ p2 ++ " ") ++ fmt_object iriOk o3 ++
        (" .\n\n" ++ openSubject (subjectText S2) p1) ++ fmt_object iriOk o4 ∧
    (TurtleFormatterWithPrefixes.formatAll iriOk
        TurtleFormatterWithPrefixes.init
        [⟨S1, p1, o1⟩, ⟨S1, p1, o2⟩, ⟨S1, p2, o3⟩, ⟨S2, p1, o4⟩]).finish =
      (TurtleFormatterWithPrefixes.formatAll iriOk
        TurtleFormatterWithPrefixes.init
        [⟨S1, p1, o1⟩, ⟨S1, p1, o2⟩, ⟨S1, p2, o3⟩, ⟨S2, p1, o4⟩]).write ++
        " .\n" ∧
    TurtleFormatterWithPrefixes.init.finish = "" := by
  refine ⟨?_, rfl, rfl⟩
  simp only [TurtleFormatterWithPrefixes.formatAll, List.foldl_cons,
    List.foldl_nil, TurtleFormatterWithPrefixes.format,
    TurtleFormatterWithPrefixes.init, with_value_subjectKind]
  simp [hS, hp]

/-- Witness for C1: the four-triple stream at concrete subjects,
predicates and simple-literal objects. -/
theorem turtle_grouping_c1_witness :
    (TurtleFormatterWithPrefixes.formatAll (fun _ => true)
        TurtleFormatterWithPrefixes.init
        [⟨NamedOrBlankNode.namedNode "http://s1", "v-s:p1",
            Term.literal (Literal.simple "o1")⟩,
          ⟨NamedOrBlankNode.namedNode "http://s1", "v-s:p1",
            Term.literal (Literal.simple "o2")⟩,
          ⟨NamedOrBlankNode.namedNode "http://s1", "v-s:p2",
            Term.literal (Literal.simple "o3")⟩,
          ⟨NamedOrBlankNode.namedNode "http://s2", "v-s:p1",
            Term.literal (Literal.simple "o4")⟩]).write =
      openSubject (subjectText (NamedOrBlankNode.namedNode "http://s1"))
          "v-s:p1" ++
        fmt_object (fun _ => true) (Term.literal (Literal.simple "o1")) ++
        ", " ++
        fmt_object (fun _ => true) (Term.literal (Literal.simple "o2")) ++
        (" ;\n  " ++ "v-s:p2" ++ " ") ++
        fmt_object (fun _ => true) (Term.literal (Literal.simple "o3")) ++
        (" .\n\n" ++
          openSubject (subjectText (NamedOrBlankNode.namedNode "http://s2"))
            "v-s:p1") ++
        fmt_object (fun _ => true) (Term.literal (Literal.simple "o4")) ∧
    (TurtleFormatterWithPrefixes.formatAll (fun _ => true)
        TurtleFormatterWithPrefixes.init
        [⟨NamedOrBlankNode.namedNode "http://s1", "v-s:p1",
            Term.literal (Literal.simple "o1")⟩,
          ⟨NamedOrBlankNode.namedNode "http://s1", "v-s:p1",
            Term.literal (Literal.simple "o2")⟩,
          ⟨NamedOrBlankNode.namedNode "http://s1", "v-s:p2",
            Term.literal (Literal.simple "o3")⟩,
          ⟨NamedOrBlankNode.namedNode "http://s2", "v-s:p1",
            Term.literal (Literal.simple "o4")⟩]).finish =
      (TurtleFormatterWithPrefixes.formatAll (fun _ => true)
        TurtleFormatterWithPrefixes.init
        [⟨NamedOrBlankNode.namedNode "http://s1", "v-s:p1",
            Term.literal (Literal.simple "o1")⟩,
          ⟨NamedOrBlankNode.namedNode "http://s1", "v-s:p1",
            Term.literal (Literal.simple "o2")⟩,
          ⟨NamedOrBlankNode.namedNode "http://s1", "v-s:p2",
            Term.literal (Literal.simple "o3")⟩,
          ⟨NamedOrBlankNode.namedNode "http://s2", "v-s:p1",
            Term.literal (Literal.simple "o4")⟩]).write ++ " .\n" ∧
    TurtleFormatterWithPrefixes.init.finish = "" :=
  turtle_grouping_c1 (fun _ => true)
    (NamedOrBlankNode.namedNode "http://s1")
    (NamedOrBlankNode.namedNode "http://s2") "v-s:p1" "v-s:p2"
    (Term.literal (Literal.simple "o1")) (Term.literal (Literal.simple "o2"))
    (Term.literal (Literal.simple "o3")) (Term.literal (Literal.simple "o4"))
    (by decide) (by decide)

/-- C6: escaping of newline, carriage return, double quote and backslash
(all other characters passing through) is inverted exactly by the reverse
substitution — unescaping the escaped output reconstructs the original
string character for character. -/
theorem unescape_escape (s : String) : unescape (escape s) = s := by
  cases s with
  | mk data => exact congrArg String.mk (unescapeChars_escape_list data)

/-- C5: rendering a named-node object term writes the text wrapped in
angle brackets when valid as an IRI with scheme http, writes it bare when
valid with any other scheme, and falls back to a double-quoted escaped
string literal when the text is not a valid IRI. -/
theorem fmt_object_named_node (iriOk : String → Bool) (t : String) :
    (iriOk t = true → httpPrefixed t = true →
      fmt_object iriOk (Term.namedNode t) = "<" ++ t ++ ">") ∧
    (iriOk t = true → httpPrefixed t = false →
      fmt_object iriOk (Term.namedNode t) = t) ∧
    (iriOk t = false →
      fmt_object iriOk (Term.namedNode t) = "\"" ++ escape t ++ "\"") := by
  refine ⟨fun h1 h2 => ?_, fun h1 h2 => ?_, fun h1 => ?_⟩
  · simp [fmt_object, h1, h2]
  · simp [fmt_object, h1, h2]
  · simp [fmt_object, h1]

/-- Witness for C5: the three renderings at concrete validator and
texts. -/
theorem fmt_object_named_node_witness :
    fmt_object (fun _ => true) (Term.namedNode "http://a/b") = "<http://a/b>" ∧
    fmt_object (fun _ => true) (Term.namedNode "v-s:deleted") = "v-s:deleted" ∧
    fmt_object (fun _ => false) (Term.namedNode "not an iri") =
      "\"" ++ escape "not an iri" ++ "\"" :=
  ⟨(fmt_object_named_node (fun _ => true) "http://a/b").1 rfl (by decide),
   (fmt_object_named_node (fun _ => true) "v-s:deleted").2.1 rfl (by decide),
   (fmt_object_named_node (fun _ => false) "not an iri").2.2 rfl⟩

/-- C10: after every format call, from any prior formatter state, the
cursor state equals the triple just processed — its subject text, the
kind of its subject, and its predicate IRI. -/
theorem format_cursor_state (iriOk : String → Bool)
    (f : TurtleFormatterWithPrefixes) (t : Triple) :
    (f.format iriOk t).current_subject = subjectText t.subject ∧
    (f.format iriOk t).current_subject_type = some (subjectKind t.subject) ∧
    (f.format iriOk t).current_predicate = t.predicate :=
  ⟨rfl, rfl, rfl⟩

/-- C8: a Resource holding a Binary value with declared type Binary
serializes to exactly the object with the single field type Binary, for
every byte payload. -/
theorem resource_binary_type_only (bytes : List Nat) :
    jsonOfResource { value := Value.Binary bytes, rtype := DataType.Binary } =
      Json.obj [("type", Json.str "Binary")] := rfl

/-- C7: as_json_str and as_json never surface an error — the former
returns the JSON encoding or the empty string, the latter the encoding or
JSON null, with no other outcome. -/
theorem as_json_never_fails (ind : IndividualObj) :
    (ind.as_json_str = renderJson (jsonOfIndividual ind) ∨
      ind.as_json_str = "") ∧
    (ind.as_json = jsonOfIndividual ind ∨ ind.as_json = Json.null) :=
  ⟨Or.inl rfl, Or.inl rfl⟩

/-- C4: in the Resource-level encoding of a Str value, the lang key is
present exactly when the declared type is String and the optional
language tag is set. -/
theorem resource_str_lang_iff (s : String) (l : Option Lang) (rt : DataType) :
    "lang" ∈ jsonKeys (jsonOfResource { value := Value.Str s l, rtype := rt }) ↔
      rt = DataType.String ∧ l.isSome = true := by
  cases l with
  | none => cases rt <;> simp [jsonOfResource, jsonKeys]
  | some lg => cases rt <;> simp [jsonOfResource, jsonKeys]

/-- C3: parse_raw classifies every non-empty buffer by its first byte —
146 as Msgpack, anything else as Cbor — and returns success on an empty
buffer with every field of the target Individual unchanged. -/
theorem parse_raw_classifies (pm pc : List Nat → Option String)
    (ind : Individual) :
    (∀ b rest, ind.raw.data = b :: rest →
      (parse_raw pm pc ind).1.raw.raw_type =
        (if b = MSGPACK_MAGIC_HEADER then RawType.Msgpack else RawType.Cbor)) ∧
    (ind.raw.data = [] → parse_raw pm pc ind = (ind, Except.ok ())) := by
  obtain ⟨⟨data, rt0⟩, obj⟩ := ind
  constructor
  · intro b rest h
    have hd : data = b :: rest := h
    subst hd
    by_cases hb : b = MSGPACK_MAGIC_HEADER
    · subst hb
      cases hres : pm (MSGPACK_MAGIC_HEADER :: rest) <;>
        simp [parse_raw, hres]
    · cases hres : pc (b :: rest) <;> simp [parse_raw, hb, hres]
  · intro h
    have hd : data = [] := h
    subst hd
    rfl

/-- Witness for C3: classification of buffers led by 146 and by 7, and the
no-op success on an empty buffer, at concrete decoders. -/
theorem parse_raw_classifies_witness :
    (parse_raw (fun _ => some "m") (fun _ => some "c")
        ⟨⟨[146, 0], RawType.Unknown⟩, ⟨"", []⟩⟩).1.raw.raw_type =
      (if 146 = MSGPACK_MAGIC_HEADER then RawType.Msgpack else RawType.Cbor) ∧
    (parse_raw (fun _ => some "m") (fun _ => some "c")
        ⟨⟨[7, 0], RawType.Unknown⟩, ⟨"", []⟩⟩).1.raw.raw_type =
      (if 7 = MSGPACK_MAGIC_HEADER then RawType.Msgpack else RawType.Cbor) ∧
    parse_raw (fun _ => some "m") (fun _ => some "c")
        ⟨⟨[], RawType.Unknown⟩, ⟨"", []⟩⟩ =
      (⟨⟨[], RawType.Unknown⟩, ⟨"", []⟩⟩, Except.ok ()) :=
  ⟨(parse_raw_classifies _ _ _).1 146 [0] rfl,
   (parse_raw_classifies _ _ _).1 7 [0] rfl,
   (parse_raw_classifies _ _ _).2 rfl⟩

/-- C9: on a non-empty buffer the detected format is stored in raw_type,
and when the matching decoder fails the call returns the sentinel error -1
with the stored classification tag persisting — the dispatch failure is
not atomic with respect to the tag. -/
theorem parse_raw_tag_persists_on_failure (pm pc : List Nat → Option String)
    (ind : Individual) (b : Nat) (rest : List Nat)
    (h : ind.raw.data = b :: rest)
    (hfail : (if b = MSGPACK_MAGIC_HEADER then pm else pc) ind.raw.data = none) :
    (parse_raw pm pc ind).2 = Except.error (-1) ∧
    (parse_raw pm pc ind).1.raw.raw_type =
      (if b = MSGPACK_MAGIC_HEADER then RawType.Msgpack else RawType.Cbor) := by
  obtain ⟨⟨data, rt0⟩, obj⟩ := ind
  have hd : data = b :: rest := h
  subst hd
  by_cases hb : b = MSGPACK_MAGIC_HEADER
  · subst hb
    rw [if_pos rfl] at hfail
    replace hfail : pm (MSGPACK_MAGIC_HEADER :: rest) = none := hfail
    simp [parse_raw, hfail]
  · rw [if_neg hb] at hfail
    replace hfail : pc (b :: rest) = none := hfail
    simp [parse_raw, hb, hfail]

/-- Witness for C9: a failing msgpack decoder on the buffer led by 146
leaves the Msgpack tag behind together with the sentinel error. -/
theorem parse_raw_tag_persists_on_failure_witness :
    (parse_raw (fun _ => none) (fun _ => none)
        ⟨⟨[146], RawType.Unknown⟩, ⟨"", []⟩⟩).2 = Except.error (-1) ∧
    (parse_raw (fun _ => none) (fun _ => none)
        ⟨⟨[146], RawType.Unknown⟩, ⟨"", []⟩⟩).1.raw.raw_type =
      (if 146 = MSGPACK_MAGIC_HEADER then RawType.Msgpack else RawType.Cbor) :=
  parse_raw_tag_persists_on_failure _ _ _ 146 [] rfl rfl

/-- C2: for every (mantissa, exponent) pair stored as a Num value in a
Decimal-typed Resource, the JSON data field is a decimal string that,
parsed back as an exact fixed-point decimal, equals
mantissa times ten to the exponent exactly, with no binary floating-point
rounding. -/
theorem decimal_data_roundtrip (m e : Int) :
    ∃ n s,
      jsonGet "data"
          (jsonOfResource { value := Value.Num m e, rtype := DataType.Decimal }) =
        some (Json.str (numDataString m e)) ∧
      parseFixedDecimal (numDataString m e) = some (n, s) ∧
      (n : ℚ) / (10 : ℚ) ^ s = (m : ℚ) * (10 : ℚ) ^ e := by
  refine ⟨(exponent_to_scale m e).1, (exponent_to_scale m e).2, rfl, ?_,
    exponent_to_scale_exact m e⟩
  unfold numDataString
  exact parse_renderFixedDecimal _ _

end VIndividual
